import Mathlib

/-!
Shallow embedding of the seriatim actor runtime (jsouthworth/seriatim).

The repository implements an actor ("Sequent") that owns a state value, a bounded
FIFO queue of requests (capacity 1), and a single worker goroutine that dequeues
and runs handlers via reflection.  This file embeds:

* `Queue` (src/queue.go): the bounded channel wrapper, with Go channel semantics
  for send, receive, close, and the drain performed by `Stop`;
* the method table machinery (`getMethods`, `convertMethods`,
  `processMethodArguments`, `processMethodReturns` of the sequent source file);
* the producer-side `Call`/`Cast` path (`newRequest` plus the running check);
* the worker loop `sequent.run` as a small-step transition system `SeqStep` over
  a system state `Sys`, with a ghost event history used to state ordering and
  exactly-once properties (enqueues, handler invocations, replies, reply-channel
  closes, supervisor notifications, purges).

Machine details that matter and are modelled explicitly:
* sending on a closed Go channel panics, closing a nil channel panics, and
  closing an already-closed channel panics;
* `request.Purged` closes the reply channel unconditionally, so purging a Cast
  request (nil reply channel) panics;
* the arity error in `processMethodArguments` reports `NumIn()` (which counts
  the receiver) and `len(args)+1`.
-/

namespace Seriatim

/-! ### Go values and types

Only the concrete types exercised by the repository and its tests are modelled:
booleans, strings, machine integers, and a pointer type (the state value of the
test receiver is a pointer `*value`).  `reflect.Value.Pointer` yields the address
for pointer values (0 for a typed nil pointer) and panics for the other kinds
modelled here; that partiality is expressed with `Option`. -/

inductive GoType where
  | boolT : GoType
  | strT : GoType
  | intT : GoType
  | ptrT : GoType
deriving DecidableEq

inductive GoVal where
  | boolV : Bool → GoVal
  | strV : String → GoVal
  | intV : Int → GoVal
  | ptrV : Nat → GoVal
deriving DecidableEq

def GoVal.typeOf : GoVal → GoType
  | GoVal.boolV _ => GoType.boolT
  | GoVal.strV _ => GoType.strT
  | GoVal.intV _ => GoType.intT
  | GoVal.ptrV _ => GoType.ptrT

/-- Go assignability (`reflect.Type.AssignableTo`) restricted to the concrete
(non-interface) types modelled here, where it coincides with type identity. -/
def assignableTo (a b : GoType) : Bool := a == b

/-- Result of invoking a Go function on concrete argument values: either a
normal return tuple, or a panic carrying the message that the worker loop will
recover (after `fmt.Errorf` normalisation a panic value is an error message). -/
inductive HandlerResult where
  | returns : List GoVal → HandlerResult
  | panics : String → HandlerResult

/-- A Go function value of kind `Func`: its declared parameter types (`NumIn`,
including the receiver slot at index 0) and its behaviour on argument tuples. -/
structure GoFunc where
  inTypes : List GoType
  run : List GoVal → HandlerResult

/-- An entry of a `map[string]interface{}` methods table: an arbitrary value,
which is either a function or not (`reflect.Value.Kind() != reflect.Func`). -/
inductive GoFuncVal where
  | notFunc : GoVal → GoFuncVal
  | func : GoFunc → GoFuncVal

/-- A method declared on a receiver type, as enumerated by
`reflect.Type.Method`: its name, whether it is exported (`PkgPath == ""`), and
the method function with the receiver as first parameter (`Method.Func`). -/
structure GoMethodDecl where
  name : String
  exported : Bool
  fn : GoFunc

/-- Go map lookup on an association list with unique keys (the models built in
this file mirror `map[string]...` values whose keys are method names). -/
def lookupName {β : Type} (name : String) : List (String × β) → Option β
  | [] => none
  | (n, v) :: rest => if n = name then some v else lookupName name rest

/-! ### Queue (src/queue.go)

The source `Queue` is a thin wrapper around `chan Message`.  A channel is
modelled by its buffered contents (FIFO), its capacity, and whether it has been
closed.  `Enqueue`/`Dequeue` return the channel itself; the model gives the
semantics of the send `q.Enqueue() <- m` and the receive `<-q.Dequeue()`. -/

structure Queue (α : Type) where
  buffer : List α
  capacity : Nat
  closed : Bool

/-- Source `NewQueue` (queue.go lines 11-18): a capacity below 1 yields a nil
queue; otherwise a fresh open channel of that capacity. -/
def NewQueue (α : Type) (limit : Int) : Option (Queue α) :=
  if limit < 1 then none
  else some { buffer := [], capacity := limit.toNat, closed := false }

def Queue.Len {α : Type} (q : Queue α) : Nat := q.buffer.length

def Queue.Cap {α : Type} (q : Queue α) : Nat := q.capacity

/-- Outcome of a Go channel send: success, blocking (buffer full, channel open),
or the runtime panic raised by sending on a closed channel. -/
inductive SendOutcome (α : Type) where
  | ok : Queue α → SendOutcome α
  | blocked : SendOutcome α
  | panicked : SendOutcome α

/-- The send `q.Enqueue() <- m` (queue.go lines 24-26 expose the channel; the
send semantics are those of the Go runtime): panics if the channel is closed,
appends if there is room, blocks otherwise. -/
def Queue.send {α : Type} (q : Queue α) (m : α) : SendOutcome α :=
  if q.closed then SendOutcome.panicked
  else if q.buffer.length < q.capacity then
    SendOutcome.ok { q with buffer := q.buffer ++ [m] }
  else SendOutcome.blocked

/-- Outcome of a Go channel receive: a value, blocking (empty, open), or the
closed signal (`ok = false`) on an empty closed channel. -/
inductive RecvOutcome (α : Type) where
  | ok : α → Queue α → RecvOutcome α
  | blocked : RecvOutcome α
  | closed : RecvOutcome α

/-- The receive `<-q.Dequeue()` (queue.go lines 20-22 expose the channel):
yields the oldest buffered value, reports closed when empty and closed, blocks
when empty and open. -/
def Queue.recv {α : Type} (q : Queue α) : RecvOutcome α :=
  match q.buffer with
  | m :: rest => RecvOutcome.ok m { q with buffer := rest }
  | [] => if q.closed then RecvOutcome.closed else RecvOutcome.blocked

/-- Outcome of `Queue.Stop`: the stopped queue together with the messages whose
`Purged()` was invoked, in drain (FIFO) order, or a panic.  Stopping an
already-stopped queue panics: the drain loop of queue.go lines 41-51 receives
the zero value from the closed empty channel and calls `Purged` on a nil
`Message` (and the final `close` would also panic). -/
inductive StopOutcome (α : Type) where
  | ok : Queue α → List α → StopOutcome α
  | panicked : StopOutcome α

/-- Source `Queue.Stop` (queue.go lines 36-39): drain every buffered message,
invoking `Purged()` on each in FIFO order, then close the channel.  The purge
invocations are returned as a list; the per-message effect of `Purged` is
message specific (for requests see `Request.Purged` below). -/
def Queue.Stop {α : Type} (q : Queue α) : StopOutcome α :=
  if q.closed then StopOutcome.panicked
  else StopOutcome.ok { q with buffer := [], closed := true } q.buffer

/-! ### Method tables (sequent source, lines 209-275) -/

/-- Source `getMethods` (lines 209-223): enumerate the declared methods of the
receiver type and keep the exported ones (`PkgPath == ""` skips private
methods), binding each name to the method function. -/
def getMethods (decls : List GoMethodDecl) : List (String × GoFuncVal) :=
  decls.filterMap (fun d => if d.exported then some (d.name, GoFuncVal.func d.fn) else none)

/-- Source `convertMethods` (lines 225-242): drop entries that are not
functions, that declare no parameters, or whose first parameter type is not
assignable from the receiver type. -/
def convertMethods (receiver : GoVal) (methods : List (String × GoFuncVal)) :
    List (String × GoFunc) :=
  methods.filterMap (fun nv =>
    match nv.2 with
    | GoFuncVal.notFunc _ => none
    | GoFuncVal.func f =>
      match f.inTypes with
      | [] => none
      | t0 :: _ => if assignableTo receiver.typeOf t0 then some (nv.1, f) else none)

/-- The error sentinels and structured argument errors visible to callers.
`wrongArity` carries the two counts embedded in the message
`Not enough arguments need %d, have %d`; `notAssignable` carries the index and
the two type names of `Argument %d of type %s is not assignable type %s`. -/
inductive SeqError where
  | sequentStop : SeqError
  | sequentDied : SeqError
  | unknownMethod : SeqError
  | wrongArity : Nat → Nat → SeqError
  | notAssignable : Nat → GoType → GoType → SeqError
deriving DecidableEq

/-- The assignability loop of `processMethodArguments` (lines 253-265): check
each supplied argument against the parameter type at the matching position
(`In(i+1)`), reporting the first mismatch. -/
def checkAssignable : List GoVal → List GoType → Nat → Except SeqError Unit
  | [], _, _ => Except.ok ()
  | _ :: _, [], _ => Except.ok ()
  | a :: as, t :: ts, i =>
    if assignableTo a.typeOf t then checkAssignable as ts (i + 1)
    else Except.error (SeqError.notAssignable i a.typeOf t)

/-- Source `processMethodArguments` (lines 244-267).  The arity check compares
`len(args)+1` with `method_type.NumIn()` and on mismatch reports
`need = NumIn()` and `have = len(args)+1`, i.e. both counts include the
implicit receiver.  On success the argument vector is the receiver followed by
the supplied arguments. -/
def processMethodArguments (method : GoFunc) (receiver : GoVal) (args : List GoVal) :
    Except SeqError (List GoVal) :=
  if args.length + 1 ≠ method.inTypes.length then
    Except.error (SeqError.wrongArity method.inTypes.length (args.length + 1))
  else
    match checkAssignable args (method.inTypes.drop 1) 0 with
    | Except.error e => Except.error e
    | Except.ok _ => Except.ok (receiver :: args)

/-- Source `processMethodReturns` (lines 269-275): unwrap each `reflect.Value`
with `Interface()`, which on concrete values is the identity. -/
def processMethodReturns (values : List GoVal) : List GoVal := values

/-! ### Requests (sequent source, lines 58-70) -/

/-- A queued `request`: the resolved method, the processed argument vector, and
whether a reply channel is present (`reply != nil`; present for Call, nil for
Cast). -/
structure Request where
  method : GoFunc
  args : List GoVal
  hasReply : Bool

/-- Effect of invoking `Purged` on a request. -/
inductive PurgeOutcome where
  | closed : PurgeOutcome
  | panicked : PurgeOutcome

/-- Source `request.Purged` (lines 68-70): `close(msg.reply)` unconditionally.
Closing the non-nil reply channel of a Call request succeeds and the waiting
caller observes the closed port; a Cast request has a nil reply channel and
closing a nil Go channel panics. -/
def Request.Purged (msg : Request) : PurgeOutcome :=
  if msg.hasReply then PurgeOutcome.closed else PurgeOutcome.panicked

/-! ### The producer-side Call/Cast path (lines 81-147) -/

/-- Source `sequent.newRequest` (lines 81-100): resolve the name in the method
table (miss yields `ErrUnknownMethod`), validate the arguments, and build the
request.  `hasReply` records whether the caller passed a reply channel (Call)
or nil (Cast). -/
def newRequest (methods : List (String × GoFunc)) (receiver : GoVal) (hasReply : Bool)
    (name : String) (args : List GoVal) : Except SeqError Request :=
  match lookupName name methods with
  | none => Except.error SeqError.unknownMethod
  | some m =>
    match processMethodArguments m receiver args with
    | Except.error e => Except.error e
    | Except.ok argVals =>
      Except.ok { method := m, args := argVals, hasReply := hasReply }

/-- What `Call`/`Cast` decide before touching the queue: either an error
returned synchronously to the caller, or a request that proceeds to the
enqueue. -/
inductive CallOutcome where
  | err : SeqError → CallOutcome
  | proceed : Request → CallOutcome

/-- The prefix of `sequent.Call` (lines 106-117) and `sequent.Cast` (lines
127-138) up to the enqueue: build the request (validation errors return with no
queue interaction), then read the `running` flag (false yields
`ErrSequentStop`), then proceed to `a.queue.Enqueue() <- req`. -/
def callAttempt (methods : List (String × GoFunc)) (receiver : GoVal) (running : Bool)
    (name : String) (args : List GoVal) (hasReply : Bool) : CallOutcome :=
  match newRequest methods receiver hasReply name args with
  | Except.error e => CallOutcome.err e
  | Except.ok r => if running then CallOutcome.proceed r else CallOutcome.err SeqError.sequentStop

/-- What a Call observes on its reply channel after the enqueue: a reply value,
or the channel closed without a value. -/
inductive ReplyObs where
  | value : List GoVal → ReplyObs
  | chanClosed : ReplyObs

/-- The suffix of `sequent.Call` (lines 119-124): a received reply is unwrapped
with `processMethodReturns`; a closed reply channel yields `ErrSequentDied`. -/
def callerFinish : ReplyObs → Except SeqError (List GoVal)
  | ReplyObs.value rets => Except.ok (processMethodReturns rets)
  | ReplyObs.chanClosed => Except.error SeqError.sequentDied

/-! ### The sequent worker as a transition system (lines 149-207)

`sequent.init` stores the converted method table, creates `NewQueue(1)`, sets
`running` to true, and spawns exactly one worker goroutine running
`sequent.run`.  The system state below carries the queue state, the atomic
`running` flag, the unbuffered kill channel (as a pending rendezvous), the
worker position, the worker-local `req` variable of `run`, and a ghost event
history. -/

/-- Ghost events recording the observable history of one sequent. -/
inductive Event where
  | enq : Request → Event
  | invoke : Request → Event
  | rep : Request → List GoVal → Event
  | closeRep : Request → Event
  | notify : String → Event
  | purge : Request → Event

/-- Position of the single worker goroutine inside `sequent.run`. -/
inductive WorkerPC where
  | selecting : WorkerPC
  | handling : Request → WorkerPC
  | exited : WorkerPC

/-- Ghost record of a handler panic (request and recovered message); emitted at
the moment the deferred recover of `run` fires. -/
inductive FaultEv where
  | fault : Request → String → FaultEv

/-- State of one sequent together with its producers. -/
structure Sys where
  methods : List (String × GoFunc)
  val : GoVal
  hasSup : Bool
  running : Bool
  qbuf : List Request
  qcap : Nat
  qclosed : Bool
  kill : Option String
  pc : WorkerPC
  lastReq : Option Request
  crashed : Bool
  events : List Event
  faults : List FaultEv

/-- `NewSupervisedSequentTable` plus `sequent.init` (lines 42-56 and 149-155):
queue of capacity 1, running true, no pending kill, worker at its select, the
worker-local `req` variable still nil. -/
def initSys (ms : List (String × GoFunc)) (v : GoVal) (sup : Bool) : Sys :=
  { methods := ms, val := v, hasSup := sup, running := true, qbuf := [], qcap := 1,
    qclosed := false, kill := none, pc := WorkerPC.selecting, lastReq := none,
    crashed := false, events := [], faults := [] }

/-- Result of `Queue.Stop` as executed inside `sequent.terminate`: the purge
events emitted (in drain order, one per completed `Purged`), the messages left
in the channel if a purge panicked, whether the channel ended closed, whether
the stop panicked, and the panic message. -/
structure StopResult where
  evs : List Event
  leftover : List Request
  closedAfter : Bool
  crashed : Bool
  crashMsg : String

/-- The drain loop of `Queue.Stop` over request messages: purge each request in
FIFO order; `Purged` on a Cast request (nil reply channel) panics, leaving the
remaining messages in the channel. -/
def drainPurge : List Request → List Event × List Request × Bool
  | [] => ([], [], false)
  | r :: rest =>
    match Request.Purged r with
    | PurgeOutcome.closed =>
      (Event.purge r :: (drainPurge rest).1, (drainPurge rest).2.1, (drainPurge rest).2.2)
    | PurgeOutcome.panicked => ([], rest, true)

/-- `Queue.Stop` as invoked by `sequent.terminate`: drain (possibly panicking on
a nil reply channel), then `close` (panicking if the channel was already
closed). -/
def queueStop (buf : List Request) (alreadyClosed : Bool) : StopResult :=
  if (drainPurge buf).2.2 then
    { evs := (drainPurge buf).1, leftover := (drainPurge buf).2.1,
      closedAfter := alreadyClosed, crashed := true, crashMsg := "close of nil channel" }
  else if alreadyClosed then
    { evs := (drainPurge buf).1, leftover := [], closedAfter := true, crashed := true,
      crashMsg := "close of closed channel" }
  else
    { evs := (drainPurge buf).1, leftover := [], closedAfter := true, crashed := false,
      crashMsg := "" }

/-- The deferred recover of `sequent.run` (lines 175-191) firing on a handler
panic inside `processRequest`: set `running` false, close the current
reply channel of the current request if present, then `terminate(err)`, which notifies the
supervisor (if any) and stops the queue.  A panic raised by the queue stop
happens inside the deferred function and aborts the program (`crashed`). -/
def faultStepResult (s : Sys) (r : Request) (msg : String) : Sys :=
  { s with running := false,
           pc := WorkerPC.exited,
           crashed := (queueStop s.qbuf s.qclosed).crashed,
           qbuf := (queueStop s.qbuf s.qclosed).leftover,
           qclosed := (queueStop s.qbuf s.qclosed).closedAfter,
           events := s.events
             ++ (if r.hasReply then [Event.closeRep r] else [])
             ++ (if s.hasSup then [Event.notify msg] else [])
             ++ (queueStop s.qbuf s.qclosed).evs,
           faults := s.faults ++ [FaultEv.fault r msg] }

/-- The kill branch of the worker loop (lines 202-204): set `running` false and
run `terminate(reason)` inline.  If the queue stop panics, the panic propagates
out of the loop into the deferred recover (lines 175-191), which closes the
reply channel of the worker-local `req` (nil if no request was ever handled,
aborting the program on the nil dereference) and runs `terminate` a second
time with the recovered error; a panic there is inside the deferred function
and aborts the program. -/
def killStepResult (s : Sys) (reason : String) : Sys :=
  if (queueStop s.qbuf s.qclosed).crashed = false then
    { s with running := false, kill := none, qbuf := [], qclosed := true,
             events := s.events
               ++ (if s.hasSup then [Event.notify reason] else [])
               ++ (queueStop s.qbuf s.qclosed).evs }
  else
    match s.lastReq with
    | none =>
      { s with running := false, kill := none, pc := WorkerPC.exited, crashed := true,
               qbuf := (queueStop s.qbuf s.qclosed).leftover,
               qclosed := (queueStop s.qbuf s.qclosed).closedAfter,
               events := s.events
                 ++ (if s.hasSup then [Event.notify reason] else [])
                 ++ (queueStop s.qbuf s.qclosed).evs }
    | some lr =>
      { s with running := false, kill := none, pc := WorkerPC.exited,
               crashed := (queueStop (queueStop s.qbuf s.qclosed).leftover
                             (queueStop s.qbuf s.qclosed).closedAfter).crashed,
               qbuf := (queueStop (queueStop s.qbuf s.qclosed).leftover
                          (queueStop s.qbuf s.qclosed).closedAfter).leftover,
               qclosed := (queueStop (queueStop s.qbuf s.qclosed).leftover
                             (queueStop s.qbuf s.qclosed).closedAfter).closedAfter,
               events := s.events
                 ++ (if s.hasSup then [Event.notify reason] else [])
                 ++ (queueStop s.qbuf s.qclosed).evs
                 ++ (if lr.hasReply then [Event.closeRep lr] else [])
                 ++ (if s.hasSup then [Event.notify (queueStop s.qbuf s.qclosed).crashMsg]
                     else [])
                 ++ (queueStop (queueStop s.qbuf s.qclosed).leftover
                       (queueStop s.qbuf s.qclosed).closedAfter).evs }

/-- Small-step semantics of one sequent with its producers.  Once `crashed` is
set the program has aborted and nothing steps. -/
inductive SeqStep : Sys → Sys → Prop where
  | callEnq (s : Sys) (name : String) (args : List GoVal) (wr : Bool) (r : Request)
      (hc : s.crashed = false)
      (hq : s.qclosed = false)
      (hlen : s.qbuf.length < s.qcap)
      (hcall : callAttempt s.methods s.val s.running name args wr = CallOutcome.proceed r) :
      SeqStep s { s with qbuf := s.qbuf ++ [r], events := s.events ++ [Event.enq r] }
  | deq (s : Sys) (r : Request) (rest : List Request)
      (hc : s.crashed = false)
      (hpc : s.pc = WorkerPC.selecting)
      (hb : s.qbuf = r :: rest) :
      SeqStep s { s with pc := WorkerPC.handling r, lastReq := some r, qbuf := rest,
                         events := s.events ++ [Event.invoke r] }
  | handleOk (s : Sys) (r : Request) (rets : List GoVal)
      (hc : s.crashed = false)
      (hpc : s.pc = WorkerPC.handling r)
      (hrun : r.method.run r.args = HandlerResult.returns rets) :
      SeqStep s { s with pc := WorkerPC.selecting,
                         events := s.events ++ (if r.hasReply then [Event.rep r rets] else []) }
  | handleFault (s : Sys) (r : Request) (msg : String)
      (hc : s.crashed = false)
      (hpc : s.pc = WorkerPC.handling r)
      (hrun : r.method.run r.args = HandlerResult.panics msg) :
      SeqStep s (faultStepResult s r msg)
  | termReq (s : Sys) (reason : String)
      (hc : s.crashed = false)
      (hk : s.kill = none) :
      SeqStep s { s with kill := some reason }
  | killRecv (s : Sys) (reason : String)
      (hc : s.crashed = false)
      (hpc : s.pc = WorkerPC.selecting)
      (hk : s.kill = some reason) :
      SeqStep s (killStepResult s reason)
  | workerExit (s : Sys)
      (hc : s.crashed = false)
      (hpc : s.pc = WorkerPC.selecting)
      (hb : s.qbuf = [])
      (hcl : s.qclosed = true) :
      SeqStep s { s with pc := WorkerPC.exited }

/-- Reachability: reflexive-transitive closure of `SeqStep`. -/
def Reachable (s0 s : Sys) : Prop := Relation.ReflTransGen SeqStep s0 s

/-! ### Ghost-history projections -/

def enqList (es : List Event) : List Request :=
  es.filterMap (fun e => match e with | Event.enq r => some r | _ => none)

def invokeList (es : List Event) : List Request :=
  es.filterMap (fun e => match e with | Event.invoke r => some r | _ => none)

def Event.isNotify : Event → Bool
  | Event.notify _ => true
  | _ => false

def Event.isPurge : Event → Bool
  | Event.purge _ => true
  | _ => false

def notifyCount (es : List Event) : Nat := es.countP Event.isNotify

def purgeCount (es : List Event) : Nat := es.countP Event.isPurge

/-- True when no purge event precedes the first supervisor notification: the
queue is not drained before the supervisor hears about the termination. -/
def noPurgeBeforeNotify : List Event → Bool
  | [] => true
  | Event.purge _ :: _ => false
  | Event.notify _ :: _ => true
  | _ :: rest => noPurgeBeforeNotify rest

/-- Number of handlers of this sequent executing in state `s`: the single
worker is inside `processRequest` or it is not. -/
def handlersExecuting (s : Sys) : Nat :=
  match s.pc with
  | WorkerPC.handling _ => 1
  | _ => 0

/-! ### Sequent construction and identity (lines 42-56 and 102-104) -/

/-- The nil gate of `NewSupervisedSequentTable` (lines 47-49): `val == nil`
compares the interface value, so only an interface-nil state (`none`) is
rejected; a typed nil pointer is a non-nil interface value and is accepted. -/
def sequentConstructorRejects (val : Option GoVal) : Bool := val.isNone

/-- Source `sequent.Id` (lines 102-104): `reflect.ValueOf(a.val).Pointer()`.
For a pointer state value this is its address — 0 when the pointer is a typed
nil; for the non-pointer kinds modelled here `Pointer()` panics (`none`). -/
def sequentId (v : GoVal) : Option Nat :=
  match v with
  | GoVal.ptrV a => some a
  | _ => none

/-! ### The test receiver `*value` (sequent_test.go lines 18-37)

Methods of the test state: `Public(bool) bool` returns its argument, `private()`
is unexported, `Crash()` performs an out-of-bounds index (panics with a runtime
error), `Broadcast(bool)` returns nothing. -/

def publicFn : GoFunc :=
  { inTypes := [GoType.ptrT, GoType.boolT],
    run := fun args => HandlerResult.returns (args.drop 1) }

def privateFn : GoFunc :=
  { inTypes := [GoType.ptrT], run := fun _ => HandlerResult.returns [] }

def crashFn : GoFunc :=
  { inTypes := [GoType.ptrT],
    run := fun _ => HandlerResult.panics "runtime error: index out of range" }

def broadcastFn : GoFunc :=
  { inTypes := [GoType.ptrT, GoType.boolT], run := fun _ => HandlerResult.returns [] }

/-- The declared method set of `*value`, as `reflect.Type.Method` enumerates it
(alphabetical); `private` has a nonempty `PkgPath`. -/
def valueDecls : List GoMethodDecl :=
  [ { name := "Broadcast", exported := true, fn := broadcastFn },
    { name := "Crash", exported := true, fn := crashFn },
    { name := "Public", exported := true, fn := publicFn },
    { name := "private", exported := false, fn := privateFn } ]

/-- The state value: a non-nil `*value` pointer at some address. -/
def valPtr : GoVal := GoVal.ptrV 1

/-- The method table a sequent over `&value{}` ends up with:
`convertMethods(val, getMethods(val))` as in `NewSequent`. -/
def valueTable : List (String × GoFunc) := convertMethods valPtr (getMethods valueDecls)

/-! ### Concrete demonstration states used by the witnesses -/

/-- Request built by `Call("Public", true)` on the test sequent. -/
def rPub : Request :=
  { method := publicFn, args := [valPtr, GoVal.boolV true], hasReply := true }

/-- Request built by `Call("Crash")` on the test sequent. -/
def rCrash : Request := { method := crashFn, args := [valPtr], hasReply := true }

/-- Request built by `Cast("Broadcast", true)` on the test sequent. -/
def rBroadcast : Request :=
  { method := broadcastFn, args := [valPtr, GoVal.boolV true], hasReply := false }

def valueInit : Sys := initSys valueTable valPtr true

/-- After `Call("Public", true)` has been enqueued. -/
def demoEnq : Sys := { valueInit with qbuf := [rPub], events := [Event.enq rPub] }

/-- After the worker has dequeued the request and entered the handler. -/
def demoHandling : Sys :=
  { valueInit with pc := WorkerPC.handling rPub, lastReq := some rPub, qbuf := [],
                   events := [Event.enq rPub, Event.invoke rPub] }

/-- After `Call("Crash")` has been enqueued on a fresh test sequent. -/
def demoCrashEnq : Sys := { valueInit with qbuf := [rCrash], events := [Event.enq rCrash] }

/-- The worker inside the `Crash` handler. -/
def demoCrashHandling : Sys :=
  { valueInit with pc := WorkerPC.handling rCrash, lastReq := some rCrash, qbuf := [],
                   events := [Event.enq rCrash, Event.invoke rCrash] }

/-- After the `Crash` handler panicked: the recover ran, the reply channel was
closed, the supervisor was notified, and the (empty) queue was stopped. -/
def demoCrashed : Sys :=
  { valueInit with running := false, pc := WorkerPC.exited, lastReq := some rCrash,
                   qbuf := [], qclosed := true,
                   events := [Event.enq rCrash, Event.invoke rCrash, Event.closeRep rCrash,
                              Event.notify "runtime error: index out of range"],
                   faults := [FaultEv.fault rCrash "runtime error: index out of range"] }

/-- An unsupervised test sequent, for the termination demonstration. -/
def termInit : Sys := initSys valueTable valPtr false

/-- A caller has posted `Terminate("NewSUT")` on the kill channel. -/
def termKillPending : Sys := { termInit with kill := some "NewSUT" }

/-- The worker consumed the kill: `running` is false and the queue is stopped. -/
def termDone : Sys :=
  { termInit with running := false, kill := none, qbuf := [], qclosed := true }

/-- The global invariant of the sequent transition system.  While the sequent
runs, no notification, purge, or fault has happened and the ghost lists satisfy
the FIFO equation `invoked ++ buffered = enqueued`.  Once stopped, the invoked
requests form a prefix of the enqueued ones, the queue is empty unless the
program aborted, and the worker is not inside a handler.  If a handler fault
has been recovered, it is unique, the worker has exited, the supervisor (when
present) was notified exactly once with the fault message and before any purge,
and the reply channel of the faulted request was closed when present. -/
structure Inv (s : Sys) : Prop where
  rphase : s.running = true →
    notifyCount s.events = 0 ∧ purgeCount s.events = 0 ∧ s.faults = [] ∧
    s.qclosed = false ∧ s.crashed = false ∧
    invokeList s.events ++ s.qbuf = enqList s.events
  sphase : s.running = false →
    (∃ t, invokeList s.events ++ t = enqList s.events) ∧
    (s.crashed = true ∨ s.qbuf = []) ∧ handlersExecuting s = 0
  fphase : s.faults = [] ∨
    ∃ r m, s.faults = [FaultEv.fault r m] ∧ s.pc = WorkerPC.exited ∧ s.running = false ∧
      notifyCount s.events = (if s.hasSup then 1 else 0) ∧
      (s.hasSup = true → noPurgeBeforeNotify s.events = true ∧ Event.notify m ∈ s.events) ∧
      (r.hasReply = true → Event.closeRep r ∈ s.events)

/-! ### Helper lemmas on ghost histories -/

theorem enqList_append (a b : List Event) : enqList (a ++ b) = enqList a ++ enqList b :=
  List.filterMap_append a b _

theorem invokeList_append (a b : List Event) :
    invokeList (a ++ b) = invokeList a ++ invokeList b :=
  List.filterMap_append a b _

theorem notifyCount_append (a b : List Event) :
    notifyCount (a ++ b) = notifyCount a + notifyCount b :=
  List.countP_append _ _ _

theorem purgeCount_append (a b : List Event) :
    purgeCount (a ++ b) = purgeCount a + purgeCount b :=
  List.countP_append _ _ _

theorem noPurgeBeforeNotify_append_clean (a b : List Event)
    (hp : purgeCount a = 0) (hn : notifyCount a = 0) :
    noPurgeBeforeNotify (a ++ b) = noPurgeBeforeNotify b := by
  induction a with
  | nil => rfl
  | cons e rest ih =>
    rw [purgeCount, List.countP_cons] at hp
    rw [notifyCount, List.countP_cons] at hn
    cases e with
    | purge r => simp [Event.isPurge] at hp
    | notify m => simp [Event.isNotify] at hn
    | enq r =>
      show noPurgeBeforeNotify (rest ++ b) = noPurgeBeforeNotify b
      exact ih (by simpa [Event.isPurge, purgeCount] using hp)
        (by simpa [Event.isNotify, notifyCount] using hn)
    | invoke r =>
      show noPurgeBeforeNotify (rest ++ b) = noPurgeBeforeNotify b
      exact ih (by simpa [Event.isPurge, purgeCount] using hp)
        (by simpa [Event.isNotify, notifyCount] using hn)
    | rep r rets =>
      show noPurgeBeforeNotify (rest ++ b) = noPurgeBeforeNotify b
      exact ih (by simpa [Event.isPurge, purgeCount] using hp)
        (by simpa [Event.isNotify, notifyCount] using hn)
    | closeRep r =>
      show noPurgeBeforeNotify (rest ++ b) = noPurgeBeforeNotify b
      exact ih (by simpa [Event.isPurge, purgeCount] using hp)
        (by simpa [Event.isNotify, notifyCount] using hn)

theorem noPurgeBeforeNotify_append_notified (a b : List Event)
    (h : noPurgeBeforeNotify a = true) (hn : 1 ≤ notifyCount a) :
    noPurgeBeforeNotify (a ++ b) = true := by
  induction a with
  | nil => simp [notifyCount] at hn
  | cons e rest ih =>
    rw [notifyCount, List.countP_cons] at hn
    cases e with
    | purge r => exact absurd h (by simp [noPurgeBeforeNotify])
    | notify m => rfl
    | enq r =>
      show noPurgeBeforeNotify (rest ++ b) = true
      exact ih h (by simpa [Event.isNotify, notifyCount] using hn)
    | invoke r =>
      show noPurgeBeforeNotify (rest ++ b) = true
      exact ih h (by simpa [Event.isNotify, notifyCount] using hn)
    | rep r rets =>
      show noPurgeBeforeNotify (rest ++ b) = true
      exact ih h (by simpa [Event.isNotify, notifyCount] using hn)
    | closeRep r =>
      show noPurgeBeforeNotify (rest ++ b) = true
      exact ih h (by simpa [Event.isNotify, notifyCount] using hn)

theorem drainPurge_evs (buf : List Request) :
    enqList (drainPurge buf).1 = [] ∧ invokeList (drainPurge buf).1 = [] ∧
    notifyCount (drainPurge buf).1 = 0 := by
  induction buf with
  | nil => exact ⟨rfl, rfl, rfl⟩
  | cons r rest ih =>
    cases hr : Request.Purged r with
    | closed =>
      have h1 : drainPurge (r :: rest) =
          (Event.purge r :: (drainPurge rest).1, (drainPurge rest).2.1,
           (drainPurge rest).2.2) := by
        simp [drainPurge, hr]
      rw [h1]
      refine ⟨?_, ?_, ?_⟩
      · simpa [enqList, List.filterMap_cons] using ih.1
      · simpa [invokeList, List.filterMap_cons] using ih.2.1
      · simpa [notifyCount, List.countP_cons, Event.isNotify] using ih.2.2
    | panicked =>
      have h1 : drainPurge (r :: rest) = ([], rest, true) := by
        simp [drainPurge, hr]
      rw [h1]
      exact ⟨rfl, rfl, rfl⟩

theorem queueStop_evs (buf : List Request) (cl : Bool) :
    enqList (queueStop buf cl).evs = [] ∧ invokeList (queueStop buf cl).evs = [] ∧
    notifyCount (queueStop buf cl).evs = 0 := by
  unfold queueStop
  split
  · exact drainPurge_evs buf
  · split
    · exact drainPurge_evs buf
    · exact drainPurge_evs buf

theorem queueStop_leftover (buf : List Request) (cl : Bool) :
    (queueStop buf cl).crashed = true ∨ (queueStop buf cl).leftover = [] := by
  unfold queueStop
  split
  · exact Or.inl rfl
  · split
    · exact Or.inl rfl
    · exact Or.inr rfl

theorem callAttempt_proceed_running {ms : List (String × GoFunc)} {v : GoVal} {b : Bool}
    {name : String} {args : List GoVal} {wr : Bool} {r : Request}
    (h : callAttempt ms v b name args wr = CallOutcome.proceed r) :
    b = true ∧ newRequest ms v wr name args = Except.ok r := by
  unfold callAttempt at h
  cases hnr : newRequest ms v wr name args with
  | error e => rw [hnr] at h; exact absurd h (by simp)
  | ok req =>
    rw [hnr] at h
    cases b with
    | false => exact absurd h (by simp)
    | true => simpa using h

theorem enqList_if (b : Bool) (es : List Event) (h : enqList es = []) :
    enqList (if b then es else []) = [] := by
  cases b
  · rfl
  · exact h

theorem invokeList_if (b : Bool) (es : List Event) (h : invokeList es = []) :
    invokeList (if b then es else []) = [] := by
  cases b
  · rfl
  · exact h

theorem notifyCount_if (b : Bool) (es : List Event) :
    notifyCount (if b then es else []) = if b then notifyCount es else 0 := by
  cases b <;> rfl

theorem purgeCount_if (b : Bool) (es : List Event) (h : purgeCount es = 0) :
    purgeCount (if b then es else []) = 0 := by
  cases b
  · rfl
  · exact h

theorem inv_init (ms : List (String × GoFunc)) (v : GoVal) (sup : Bool) :
    Inv (initSys ms v sup) := by
  refine ⟨fun _ => ⟨rfl, rfl, rfl, rfl, rfl, rfl⟩, fun h => ?_, Or.inl rfl⟩
  exact absurd h (by simp [initSys])

theorem inv_step {s s2 : Sys} (hi : Inv s) (hs : SeqStep s s2) : Inv s2 := by
  obtain ⟨hr, hsp, hf⟩ := hi
  cases hs with
  | callEnq name args wr r hc hq hlen hcall =>
    have hrun : s.running = true := (callAttempt_proceed_running hcall).1
    have R := hr hrun
    refine ⟨fun _ => ?_, fun h2 => ?_, Or.inl R.2.2.1⟩
    · refine ⟨?_, ?_, R.2.2.1, R.2.2.2.1, R.2.2.2.2.1, ?_⟩
      · rw [notifyCount_append, R.1]; rfl
      · rw [purgeCount_append, R.2.1]; rfl
      · have h1 : invokeList [Event.enq r] = [] := rfl
        have h2 : enqList [Event.enq r] = [r] := rfl
        rw [invokeList_append, enqList_append, h1, h2, List.append_nil,
          ← List.append_assoc, R.2.2.2.2.2]
    · exact absurd (hrun.symm.trans h2) (by simp)
  | deq r rest hc hpc hb =>
    have hrun : s.running = true := by
      cases hR : s.running with
      | false =>
        rcases (hsp hR).2.1 with hcr | hqe
        · exact absurd (hc.symm.trans hcr) (by simp)
        · rw [hqe] at hb; exact absurd hb (by simp)
      | true => rfl
    have R := hr hrun
    refine ⟨fun _ => ?_, fun h2 => ?_, Or.inl R.2.2.1⟩
    · refine ⟨?_, ?_, R.2.2.1, R.2.2.2.1, R.2.2.2.2.1, ?_⟩
      · rw [notifyCount_append, R.1]; rfl
      · rw [purgeCount_append, R.2.1]; rfl
      · have h1 : invokeList [Event.invoke r] = [r] := rfl
        have h2 : enqList [Event.invoke r] = [] := rfl
        have h3 := R.2.2.2.2.2
        rw [hb] at h3
        rw [invokeList_append, enqList_append, h1, h2, List.append_nil,
          List.append_assoc, List.singleton_append, h3]
    · exact absurd (hrun.symm.trans h2) (by simp)
  | handleOk r rets hc hpc hrun2 =>
    have hrun : s.running = true := by
      cases hR : s.running with
      | false =>
        have h0 := (hsp hR).2.2
        simp [handlersExecuting, hpc] at h0
      | true => rfl
    have R := hr hrun
    refine ⟨fun _ => ?_, fun h2 => ?_, Or.inl R.2.2.1⟩
    · refine ⟨?_, ?_, R.2.2.1, R.2.2.2.1, R.2.2.2.2.1, ?_⟩
      · rw [notifyCount_append, R.1, notifyCount_if]; cases r.hasReply <;> rfl
      · rw [purgeCount_append, R.2.1, purgeCount_if r.hasReply [Event.rep r rets] rfl]
      · rw [invokeList_append, enqList_append, invokeList_if r.hasReply [Event.rep r rets] rfl,
          enqList_if r.hasReply [Event.rep r rets] rfl, List.append_nil, List.append_nil,
          R.2.2.2.2.2]
    · exact absurd (hrun.symm.trans h2) (by simp)
  | handleFault r msg hc hpc hrun2 =>
    have hrun : s.running = true := by
      cases hR : s.running with
      | false =>
        have h0 := (hsp hR).2.2
        simp [handlersExecuting, hpc] at h0
      | true => rfl
    have R := hr hrun
    have hinvL : invokeList (faultStepResult s r msg).events = invokeList s.events := by
      show invokeList (s.events ++ _ ++ _ ++ _) = _
      rw [invokeList_append, invokeList_append, invokeList_append,
        invokeList_if r.hasReply [Event.closeRep r] rfl,
        invokeList_if s.hasSup [Event.notify msg] rfl, (queueStop_evs s.qbuf s.qclosed).2.1]
      simp
    have henqL : enqList (faultStepResult s r msg).events = enqList s.events := by
      show enqList (s.events ++ _ ++ _ ++ _) = _
      rw [enqList_append, enqList_append, enqList_append,
        enqList_if r.hasReply [Event.closeRep r] rfl,
        enqList_if s.hasSup [Event.notify msg] rfl, (queueStop_evs s.qbuf s.qclosed).1]
      simp
    refine ⟨fun h2 => absurd h2 (by simp [faultStepResult]), fun _ => ?_, ?_⟩
    · refine ⟨⟨s.qbuf, ?_⟩, ?_, rfl⟩
      · rw [hinvL, henqL]; exact R.2.2.2.2.2
      · exact queueStop_leftover s.qbuf s.qclosed
    · refine Or.inr ⟨r, msg, ?_, rfl, rfl, ?_, fun hsup => ?_, fun hrep => ?_⟩
      · show s.faults ++ [FaultEv.fault r msg] = _
        rw [R.2.2.1]; rfl
      · show notifyCount (s.events ++ _ ++ _ ++ _) = if s.hasSup then 1 else 0
        rw [notifyCount_append, notifyCount_append, notifyCount_append, R.1,
          notifyCount_if, notifyCount_if, (queueStop_evs s.qbuf s.qclosed).2.2]
        cases s.hasSup <;> cases r.hasReply <;> rfl
      · have hsup2 : s.hasSup = true := hsup
        constructor
        · show noPurgeBeforeNotify (s.events ++ _ ++ _ ++ _) = true
          rw [hsup2]
          have hclean : purgeCount (s.events ++ (if r.hasReply then [Event.closeRep r] else [])) = 0 := by
            rw [purgeCount_append, R.2.1, purgeCount_if r.hasReply [Event.closeRep r] rfl]
          have hclean2 : notifyCount (s.events ++ (if r.hasReply then [Event.closeRep r] else [])) = 0 := by
            rw [notifyCount_append, R.1, notifyCount_if]
            cases r.hasReply <;> rfl
          rw [if_pos rfl, List.append_assoc (s.events ++ _),
            noPurgeBeforeNotify_append_clean _ _ hclean hclean2]
          rfl
        · show Event.notify msg ∈ s.events ++ _ ++ _ ++ _
          rw [hsup2]
          simp
      · have hrep2 : r.hasReply = true := hrep
        show Event.closeRep r ∈ s.events ++ _ ++ _ ++ _
        rw [hrep2]
        simp
  | termReq reason hc hk =>
    exact ⟨hr, hsp, hf⟩
  | killRecv reason hc hpc hk =>
    have hfe : s.faults = [] := by
      rcases hf with h | ⟨r0, m0, hfa, hpc0, _⟩
      · exact h
      · rw [hpc] at hpc0; exact absurd hpc0 (by simp)
    have hpre : ∃ t, invokeList s.events ++ t = enqList s.events := by
      cases hR : s.running with
      | false => exact (hsp hR).1
      | true => exact ⟨s.qbuf, (hr hR).2.2.2.2.2⟩
    obtain ⟨t, ht⟩ := hpre
    unfold killStepResult
    split
    · -- terminate completed inline; the loop continues at its select
      refine ⟨fun h2 => (nomatch h2), fun _ => ⟨⟨t, ?_⟩, Or.inr rfl, ?_⟩, Or.inl hfe⟩
      · show invokeList (s.events ++ _ ++ _) ++ t = enqList (s.events ++ _ ++ _)
        rw [invokeList_append, invokeList_append, enqList_append, enqList_append,
          invokeList_if s.hasSup [Event.notify reason] rfl,
          enqList_if s.hasSup [Event.notify reason] rfl,
          (queueStop_evs s.qbuf s.qclosed).2.1, (queueStop_evs s.qbuf s.qclosed).1]
        simpa using ht
      · show handlersExecuting _ = 0
        simp [handlersExecuting, hpc]
    · -- the queue stop panicked; the recover in the worker runs
      split
      · -- no request was ever handled: nil dereference aborts the program
        refine ⟨fun h2 => (nomatch h2), fun _ => ⟨⟨t, ?_⟩, Or.inl rfl, rfl⟩, Or.inl hfe⟩
        show invokeList (s.events ++ _ ++ _) ++ t = enqList (s.events ++ _ ++ _)
        rw [invokeList_append, invokeList_append, enqList_append, enqList_append,
          invokeList_if s.hasSup [Event.notify reason] rfl,
          enqList_if s.hasSup [Event.notify reason] rfl,
          (queueStop_evs s.qbuf s.qclosed).2.1, (queueStop_evs s.qbuf s.qclosed).1]
        simpa using ht
      · -- the recover closes the last request reply and terminates again
        rename_i lr hlr
        refine ⟨fun h2 => (nomatch h2), fun _ => ⟨⟨t, ?_⟩, ?_, rfl⟩, Or.inl hfe⟩
        · show invokeList (s.events ++ _ ++ _ ++ _ ++ _ ++ _) ++ t =
            enqList (s.events ++ _ ++ _ ++ _ ++ _ ++ _)
          rw [invokeList_append, invokeList_append, invokeList_append, invokeList_append,
            invokeList_append, enqList_append, enqList_append, enqList_append,
            enqList_append, enqList_append,
            invokeList_if s.hasSup [Event.notify reason] rfl,
            invokeList_if lr.hasReply [Event.closeRep lr] rfl,
            invokeList_if s.hasSup [Event.notify (queueStop s.qbuf s.qclosed).crashMsg] rfl,
            enqList_if s.hasSup [Event.notify reason] rfl,
            enqList_if lr.hasReply [Event.closeRep lr] rfl,
            enqList_if s.hasSup [Event.notify (queueStop s.qbuf s.qclosed).crashMsg] rfl,
            (queueStop_evs s.qbuf s.qclosed).2.1, (queueStop_evs s.qbuf s.qclosed).1,
            (queueStop_evs (queueStop s.qbuf s.qclosed).leftover
              (queueStop s.qbuf s.qclosed).closedAfter).2.1,
            (queueStop_evs (queueStop s.qbuf s.qclosed).leftover
              (queueStop s.qbuf s.qclosed).closedAfter).1]
          simpa using ht
        · exact queueStop_leftover (queueStop s.qbuf s.qclosed).leftover
            (queueStop s.qbuf s.qclosed).closedAfter
  | workerExit hc hpc hb hcl =>
    refine ⟨fun h2 => ?_, fun h2 => ?_, ?_⟩
    · exact absurd ((hr h2).2.2.2.1.symm.trans hcl) (by simp)
    · have S := hsp h2
      exact ⟨S.1, S.2.1, rfl⟩
    · rcases hf with h | ⟨r0, m0, hfa, hpc0, _⟩
      · exact Or.inl h
      · rw [hpc] at hpc0; exact absurd hpc0 (by simp)

theorem inv_reachable {s0 s : Sys} (hi : Inv s0) (h : Reachable s0 s) : Inv s := by
  induction h with
  | refl => exact hi
  | tail _ hstep ih => exact inv_step ih hstep

/-! ### Claim theorems -/

/-- C1: for every sequence of Call/Cast requests enqueued on a single live
Sequent, the handler invocations occur in exactly the enqueue order (the
invoked-so-far list is a prefix of the enqueued list), and at most one handler
of that Sequent executes at any time: the single worker spawned by
`sequent.init` is inside `processRequest` or it is not. -/
theorem C1_fifo_order_and_serial (ms : List (String × GoFunc)) (v : GoVal) (sup : Bool)
    (s : Sys) (h : Reachable (initSys ms v sup) s) :
    (∃ t, invokeList s.events ++ t = enqList s.events) ∧ handlersExecuting s ≤ 1 := by
  have hi := inv_reachable (inv_init ms v sup) h
  constructor
  · cases hR : s.running with
    | true => exact ⟨s.qbuf, (hi.rphase hR).2.2.2.2.2⟩
    | false => exact (hi.sphase hR).1
  · unfold handlersExecuting
    cases s.pc <;> simp

/-- Witness for C1: a concrete two-step execution — `Call("Public", true)` is
enqueued and the worker dequeues it and enters the handler. -/
theorem C1_witness :
    (∃ t, invokeList demoHandling.events ++ t = enqList demoHandling.events) ∧
    handlersExecuting demoHandling ≤ 1 :=
  C1_fifo_order_and_serial valueTable valPtr true demoHandling
    (Relation.ReflTransGen.tail (Relation.ReflTransGen.single
      (SeqStep.callEnq valueInit "Public" [GoVal.boolV true] true rPub rfl rfl
        (by decide) rfl))
      (SeqStep.deq demoEnq rPub [] rfl rfl rfl))

/-- C2: for every Sequent whose handler raises a fault during a Call, the fault
is caught by the worker (the caller of that Call sees its reply channel closed
and gets `SequentDied`, never the raw fault), and the supervisor, if any, is
notified exactly once with the fault as the reason, before the queue is
drained (no purge event precedes the notification). -/
theorem C2_handler_fault_contained (ms : List (String × GoFunc)) (v : GoVal) (sup : Bool)
    (s : Sys) (r : Request) (m : String)
    (h : Reachable (initSys ms v sup) s)
    (hfm : FaultEv.fault r m ∈ s.faults) :
    (r.hasReply = true → Event.closeRep r ∈ s.events ∧
       callerFinish ReplyObs.chanClosed = Except.error SeqError.sequentDied) ∧
    (s.hasSup = true → notifyCount s.events = 1 ∧ Event.notify m ∈ s.events ∧
       noPurgeBeforeNotify s.events = true) := by
  have hi := inv_reachable (inv_init ms v sup) h
  rcases hi.fphase with he | ⟨r0, m0, hfa, _, _, hnc, hns, hcr⟩
  · rw [he] at hfm
    exact absurd hfm (by simp)
  · rw [hfa] at hfm
    have heq : FaultEv.fault r m = FaultEv.fault r0 m0 := List.mem_singleton.mp hfm
    injection heq with h1 h2
    subst h1
    subst h2
    refine ⟨fun hrep => ⟨hcr hrep, rfl⟩, fun hsup => ?_⟩
    refine ⟨?_, (hns hsup).2, (hns hsup).1⟩
    rw [hnc, hsup]
    simp

/-- Witness for C2: the concrete `Call("Crash")` execution — enqueue, dequeue,
handler panic — ends with the reply channel closed, exactly one supervisor
notification carrying the runtime error, no purge before it, and the caller
side mapping a closed reply channel to `SequentDied`. -/
theorem C2_witness :
    Event.closeRep rCrash ∈ demoCrashed.events ∧
    notifyCount demoCrashed.events = 1 ∧
    Event.notify "runtime error: index out of range" ∈ demoCrashed.events ∧
    noPurgeBeforeNotify demoCrashed.events = true ∧
    callerFinish ReplyObs.chanClosed = Except.error SeqError.sequentDied := by
  have h := C2_handler_fault_contained valueTable valPtr true demoCrashed rCrash
    "runtime error: index out of range"
    (Relation.ReflTransGen.tail (Relation.ReflTransGen.tail (Relation.ReflTransGen.single
      (SeqStep.callEnq valueInit "Crash" [] true rCrash rfl rfl (by decide) rfl))
      (SeqStep.deq demoCrashEnq rCrash [] rfl rfl rfl))
      (SeqStep.handleFault demoCrashHandling rCrash "runtime error: index out of range"
        rfl rfl rfl))
    (List.Mem.head _)
  exact ⟨(h.1 rfl).1, (h.2 rfl).1, (h.2 rfl).2.1, (h.2 rfl).2.2, (h.1 rfl).2⟩

/-- C3 counterexample: the claim says every Call or Cast issued after
termination returns `SequentStopped`, but `Call` resolves the method name
before reading `running`, so `Call("private")` on a terminated sequent returns
`UnknownMethod`, not `SequentStopped`.  The terminated state is reached by a
concrete `Terminate` execution. -/
theorem C3_counterexample :
    Reachable termInit termDone ∧ termDone.running = false ∧
    callAttempt termDone.methods termDone.val termDone.running "private" [] true =
      CallOutcome.err SeqError.unknownMethod ∧
    CallOutcome.err SeqError.unknownMethod ≠ CallOutcome.err SeqError.sequentStop := by
  refine ⟨?_, rfl, rfl, by simp⟩
  exact Relation.ReflTransGen.tail (Relation.ReflTransGen.single
    (SeqStep.termReq termInit "NewSUT" rfl rfl))
    (SeqStep.killRecv termKillPending "NewSUT" rfl rfl rfl)

/-- C3 amended: for every terminated Sequent, `running` is false and stays
false permanently (no transition turns it back on), and every Call or Cast
whose method name resolves and whose arguments validate returns
`SequentStopped` when issued after termination. -/
theorem C3_amended :
    (∀ s s2 : Sys, SeqStep s s2 → s.running = false → s2.running = false) ∧
    (∀ s s2 : Sys, Reachable s s2 → s.running = false → s2.running = false) ∧
    (∀ (ms : List (String × GoFunc)) (v : GoVal) (name : String) (args : List GoVal)
       (wr : Bool) (r : Request), newRequest ms v wr name args = Except.ok r →
       callAttempt ms v false name args wr = CallOutcome.err SeqError.sequentStop) := by
  have hstep : ∀ s s2 : Sys, SeqStep s s2 → s.running = false → s2.running = false := by
    intro s s2 hs hrn
    cases hs with
    | callEnq name args wr r hc hq hlen hcall => exact hrn
    | deq r rest hc hpc hb => exact hrn
    | handleOk r rets hc hpc hrun => exact hrn
    | handleFault r msg hc hpc hrun => rfl
    | termReq reason hc hk => exact hrn
    | killRecv reason hc hpc hk =>
      unfold killStepResult
      split
      · rfl
      · split
        · rfl
        · rfl
    | workerExit hc hpc hb hcl => exact hrn
  refine ⟨hstep, ?_, ?_⟩
  · intro s s2 hreach hrn
    induction hreach with
    | refl => exact hrn
    | tail _ hstep2 ih => exact hstep _ _ hstep2 ih
  · intro ms v name args wr r hreq
    unfold callAttempt
    rw [hreq]
    rfl

/-- Witness for C3: `running` stays false across a concrete step of the
terminated sequent, and a well-formed `Call("Public", true)` against a
non-running sequent returns `SequentStopped`. -/
theorem C3_witness :
    Sys.running { termDone with kill := some "again" } = false ∧
    callAttempt valueTable valPtr false "Public" [GoVal.boolV true] true =
      CallOutcome.err SeqError.sequentStop := by
  constructor
  · exact C3_amended.1 termDone { termDone with kill := some "again" }
      (SeqStep.termReq termDone "again" rfl rfl) rfl
  · exact C3_amended.2.2 valueTable valPtr "Public" [GoVal.boolV true] true rPub rfl

/-- C4 (code bug evaluation): a purged Call request closes its reply port and
the waiting caller observes `SequentDied`, but `request.Purged` executes
`close(msg.reply)` unconditionally, and a Cast request carries a nil reply
channel, so purging a Cast request panics instead of completing — the drain
loop of `Queue.Stop` aborts on it. -/
theorem C4_purged_cast_panics :
    newRequest valueTable valPtr false "Broadcast" [GoVal.boolV true] =
      Except.ok rBroadcast ∧
    rBroadcast.hasReply = false ∧
    Request.Purged rBroadcast = PurgeOutcome.panicked ∧
    Request.Purged rPub = PurgeOutcome.closed ∧
    callerFinish ReplyObs.chanClosed = Except.error SeqError.sequentDied ∧
    drainPurge [rBroadcast] = ([], [], true) :=
  ⟨rfl, rfl, rfl, rfl, rfl, rfl⟩

/-- C5 (code bug evaluation): `Call("Public")` with no arguments on the 1-arg
method `Public` yields the arity error with `need = 2` and `have = 1` — the
counts of `processMethodArguments` include the implicit receiver — whereas the
claim (and the repository test sequent_test.go:163) expects `need = 1`,
`have = 0`. -/
theorem C5_arity_error_counts :
    processMethodArguments publicFn valPtr [] = Except.error (SeqError.wrongArity 2 1) ∧
    callAttempt valueTable valPtr true "Public" [] true =
      CallOutcome.err (SeqError.wrongArity 2 1) ∧
    callAttempt valueTable valPtr true "Broadcast" [] false =
      CallOutcome.err (SeqError.wrongArity 2 1) ∧
    publicFn.inTypes.length = 2 ∧
    SeqError.wrongArity 2 1 ≠ SeqError.wrongArity 1 0 :=
  ⟨rfl, rfl, rfl, rfl, by decide⟩

/-- C6 counterexample: the claim says an enqueue on a stopped queue fails
gracefully rather than blocking or faulting, but after `Stop` the channel is
closed and a send on a closed Go channel panics. -/
theorem C6_counterexample :
    Queue.Stop { buffer := ([] : List Nat), capacity := 1, closed := false } =
      StopOutcome.ok { buffer := [], capacity := 1, closed := true } [] ∧
    Queue.send { buffer := ([] : List Nat), capacity := 1, closed := true } 7 =
      SendOutcome.panicked :=
  ⟨rfl, rfl⟩

/-- C6 amended: an enqueue on a stopped queue faults deterministically (the
send on the closed channel panics; it does not block and does not succeed);
producers avoid it by checking `running` before enqueueing and returning
`SequentStopped` themselves. -/
theorem C6_amended {α : Type} (q : Queue α) (m : α) (h : q.closed = true) :
    Queue.send q m = SendOutcome.panicked := by
  unfold Queue.send
  rw [h]
  rfl

/-- Witness for C6: the amended statement evaluated on a concrete stopped
queue. -/
theorem C6_witness :
    Queue.send { buffer := ([] : List Nat), capacity := 2, closed := true } 5 =
      SendOutcome.panicked :=
  C6_amended { buffer := [], capacity := 2, closed := true } 5 rfl

/-- C7: stopping a queue purges exactly the resident messages, once each, in
FIFO order (the purge list is the buffer itself), and closes the channel so a
subsequent dequeue observes end-of-stream. -/
theorem C7_stop_purges_fifo {α : Type} (q : Queue α) (h : q.closed = false) :
    Queue.Stop q = StopOutcome.ok { q with buffer := [], closed := true } q.buffer ∧
    Queue.recv { q with buffer := ([] : List α), closed := true } = RecvOutcome.closed := by
  constructor
  · unfold Queue.Stop
    rw [h]
    rfl
  · rfl

/-- Witness for C7: the literal scenario of the spec — a capacity-3 queue with
three resident messages is stopped; all three are purged in FIFO order and the
subsequent dequeue observes closed. -/
theorem C7_witness :
    Queue.Stop { buffer := [10, 20, 30], capacity := 3, closed := false } =
      StopOutcome.ok { buffer := ([] : List Nat), capacity := 3, closed := true }
        [10, 20, 30] ∧
    Queue.recv { buffer := ([] : List Nat), capacity := 3, closed := true } =
      RecvOutcome.closed := by
  have h := C7_stop_purges_fifo { buffer := [10, 20, 30], capacity := 3, closed := false } rfl
  exact ⟨h.1, h.2⟩

/-- C8: a Call or Cast whose method name does not resolve in the table returns
`UnknownMethod` with no queue interaction (the outcome never proceeds to an
enqueue); in particular `private` is excluded from the auto-discovered table
even though it exists on the state, so calling or casting it returns
`UnknownMethod`. -/
theorem C8_unknown_method_no_queue
    (ms : List (String × GoFunc)) (v : GoVal) (b : Bool) (name : String)
    (args : List GoVal) (wr : Bool)
    (h : lookupName name ms = none) :
    callAttempt ms v b name args wr = CallOutcome.err SeqError.unknownMethod ∧
    (∀ r : Request, callAttempt ms v b name args wr ≠ CallOutcome.proceed r) ∧
    lookupName "private" valueTable = none ∧
    valueDecls.any (fun d => d.name == "private") = true ∧
    callAttempt valueTable valPtr true "private" [] true =
      CallOutcome.err SeqError.unknownMethod ∧
    callAttempt valueTable valPtr true "private" [] false =
      CallOutcome.err SeqError.unknownMethod := by
  have h1 : callAttempt ms v b name args wr = CallOutcome.err SeqError.unknownMethod := by
    unfold callAttempt newRequest
    rw [h]
  refine ⟨h1, ?_, rfl, rfl, rfl, rfl⟩
  intro r hx
  rw [h1] at hx
  exact absurd hx (by simp)

/-- Witness for C8: a name absent from the concrete table yields
`UnknownMethod`. -/
theorem C8_witness :
    callAttempt valueTable valPtr true "Absent" [] true =
      CallOutcome.err SeqError.unknownMethod :=
  (C8_unknown_method_no_queue valueTable valPtr true "Absent" [] true rfl).1

/-- C9: `NewQueue` returns nil exactly for capacities below 1; for a capacity
of at least 1 it returns a queue with that capacity (empty and open). -/
theorem C9_newqueue_capacity (α : Type) (limit : Int) :
    (limit < 1 → NewQueue α limit = none) ∧
    (1 ≤ limit →
      NewQueue α limit = some { buffer := [], capacity := limit.toNat, closed := false } ∧
      (limit.toNat : Int) = limit) := by
  constructor
  · intro h
    unfold NewQueue
    rw [if_pos h]
  · intro h
    refine ⟨?_, Int.toNat_of_nonneg (by omega)⟩
    unfold NewQueue
    rw [if_neg (by omega)]

/-- Witness for C9: zero and negative capacities are rejected; capacity 3 is
accepted with that capacity. -/
theorem C9_witness :
    NewQueue Nat 0 = none ∧ NewQueue Nat (-5) = none ∧
    NewQueue Nat 3 = some { buffer := [], capacity := 3, closed := false } := by
  refine ⟨(C9_newqueue_capacity Nat 0).1 (by decide),
    (C9_newqueue_capacity Nat (-5)).1 (by decide), ?_⟩
  exact ((C9_newqueue_capacity Nat 3).2 (by decide)).1

/-- C10 counterexample: the claim says every live Sequent built from a non-null
state value has a nonzero id, but the constructor accepts a typed nil pointer
(a non-nil interface value) and `Id` then returns 0; moreover for a non-pointer
state value `reflect.Value.Pointer` panics rather than returning an
identifier. -/
theorem C10_counterexample :
    sequentConstructorRejects (some (GoVal.ptrV 0)) = false ∧
    sequentId (GoVal.ptrV 0) = some 0 ∧
    sequentId (GoVal.boolV true) = none :=
  ⟨rfl, rfl, rfl⟩

/-- C10 amended: for every live Sequent whose state value is a non-nil pointer,
`Id` returns its nonzero address, and the id is stable for the lifetime of the
Sequent because no transition modifies the owned state value. -/
theorem C10_amended (a : Nat) (h : a ≠ 0) :
    sequentId (GoVal.ptrV a) = some a ∧ some a ≠ some 0 ∧
    (∀ s s2 : Sys, SeqStep s s2 → s2.val = s.val) := by
  refine ⟨rfl, by simpa using h, ?_⟩
  intro s s2 hs
  cases hs with
  | callEnq name args wr r hc hq hlen hcall => rfl
  | deq r rest hc hpc hb => rfl
  | handleOk r rets hc hpc hrun => rfl
  | handleFault r msg hc hpc hrun => rfl
  | termReq reason hc hk => rfl
  | killRecv reason hc hpc hk =>
    unfold killStepResult
    split
    · rfl
    · split
      · rfl
      · rfl
  | workerExit hc hpc hb hcl => rfl

/-- Witness for C10: the amended statement at the concrete address 7. -/
theorem C10_witness :
    sequentId (GoVal.ptrV 7) = some 7 ∧ some 7 ≠ some 0 := by
  have h := C10_amended 7 (by decide)
  exact ⟨h.1, h.2.1⟩

end Seriatim
